import Mathlib

/-!
Shallow embedding of the store state manager of `src/App.tsx`
(the `AppProvider` context of the e-commerce storefront) together with the
data model of `src/types.ts`.

JavaScript numbers are modelled as `Int` (all the quantities, prices and
amounts handled by the store logic are integers); `Date.now()` is modelled
by an explicit `now : Int` parameter threaded into the operations that call
it; the `async` wrappers and the localStorage persistence layer are
irrelevant to the state transitions and are dropped: each operation is a
pure function on a `StoreState`.
-/

namespace Store

/-- `Product` of src/types.ts. -/
structure Product where
  id : String
  name : String
  price : Int
  image : String
  description : String
deriving DecidableEq, Repr

/-- `CartItem` of src/types.ts: `CartItem extends Product` plus a quantity. -/
structure CartItem extends Product where
  quantity : Int
deriving DecidableEq, Repr

/-- `CustomerInfo` of src/types.ts. -/
structure CustomerInfo where
  name : String
  phone : String
  address : String
deriving DecidableEq, Repr

/-- The `status` field of `Order` in src/types.ts:
`'Pending' | 'Shipped' | 'Delivered'`. -/
inductive OrderStatus where
  | Pending
  | Shipped
  | Delivered
deriving DecidableEq, Repr

/-- `Order` of src/types.ts. The `paymentMethod` field has the single
literal type `'Cash on Delivery'`, kept as a `String` here. -/
structure Order where
  id : String
  customerInfo : CustomerInfo
  items : List CartItem
  totalAmount : Int
  paymentMethod : String
  timestamp : Int
  status : OrderStatus
deriving DecidableEq, Repr

/-- The state owned by `AppProvider` in src/App.tsx: the four
`useLocalStorage` slots `isAdmin`, `products`, `cart`, `orders`. -/
structure StoreState where
  isAdmin : Bool
  products : List Product
  cart : List CartItem
  orders : List Order
deriving DecidableEq, Repr

/-- Constant `ADMIN_EMAIL` of src/App.tsx. -/
def ADMIN_EMAIL : String := "admin@example.com"

/-- Constant `ADMIN_PASSWORD` of src/App.tsx. -/
def ADMIN_PASSWORD : String := "password123"

/-- Constant `SHIPPING_COST` of src/App.tsx. -/
def SHIPPING_COST : Int := 250

/-- The `initialProducts` array of src/App.tsx. -/
def initialProducts : List Product :=
  [ { id := "1", name := "Classic Leather Wallet", price := 2500,
      image := "https://picsum.photos/seed/product1/400/300",
      description := "A high-quality classic leather wallet with multiple compartments." },
    { id := "2", name := "Modern Smartwatch DX", price := 15000,
      image := "https://picsum.photos/seed/product2/400/300",
      description := "Stay connected with this sleek and feature-rich smartwatch." },
    { id := "3", name := "Wireless Bluetooth Headphones", price := 7000,
      image := "https://picsum.photos/seed/product3/400/300",
      description := "Immersive sound quality with long-lasting battery life." },
    { id := "4", name := "Ergonomic Office Chair", price := 22000,
      image := "https://picsum.photos/seed/product4/400/300",
      description := "Comfortable and supportive chair for long working hours." },
    { id := "5", name := "Portable Coffee Maker", price := 4500,
      image := "https://picsum.photos/seed/product5/400/300",
      description := "Enjoy fresh coffee anywhere with this portable maker." },
    { id := "6", name := "Yoga Mat Premium", price := 3000,
      image := "https://picsum.photos/seed/product6/400/300",
      description := "Non-slip and eco-friendly yoga mat for your practice." } ]

/-- The initial provider state: the `useLocalStorage` defaults
`isAdmin = false`, `products = initialProducts`, `cart = []`,
`orders = []`. -/
def initialStore : StoreState :=
  { isAdmin := false, products := initialProducts, cart := [], orders := [] }

/-- `login` of src/App.tsx: sets the session flag and returns `true` iff
both credentials match the constants; otherwise returns `false` without
touching the state. -/
def login (email pass : String) (s : StoreState) : Bool × StoreState :=
  if email = ADMIN_EMAIL ∧ pass = ADMIN_PASSWORD then
    (true, { s with isAdmin := true })
  else
    (false, s)

/-- `logout` of src/App.tsx. -/
def logout (s : StoreState) : StoreState :=
  { s with isAdmin := false }

/-- The argument of `addProduct` in src/App.tsx: `Omit<Product, 'id'>`. -/
structure ProductData where
  name : String
  price : Int
  image : String
  description : String
deriving DecidableEq, Repr

/-- `addProduct` of src/App.tsx: builds a new product whose id is
`Date.now().toString()` (the clock value is the explicit `now` argument)
and appends it to the product list. -/
def addProduct (productData : ProductData) (now : Int) (s : StoreState) : StoreState :=
  let newProduct : Product :=
    { id := toString now, name := productData.name, price := productData.price,
      image := productData.image, description := productData.description }
  { s with products := s.products ++ [newProduct] }

/-- `editProduct` of src/App.tsx. -/
def editProduct (updatedProduct : Product) (s : StoreState) : StoreState :=
  { s with products :=
      s.products.map (fun p => if p.id = updatedProduct.id then updatedProduct else p) }

/-- `deleteProduct` of src/App.tsx. -/
def deleteProduct (productId : String) (s : StoreState) : StoreState :=
  { s with products := s.products.filter (fun p => p.id != productId) }

/-- `getProductById` of src/App.tsx. -/
def getProductById (productId : String) (s : StoreState) : Option Product :=
  s.products.find? (fun p => p.id == productId)

/-- `addToCart` of src/App.tsx: if some cart line already has the product's
id, add the quantity onto every matching line via `map`; otherwise append a
fresh line `{ ...product, quantity }`. The TypeScript default `quantity = 1`
is made explicit here. -/
def addToCart (product : Product) (quantity : Int) (s : StoreState) : StoreState :=
  match s.cart.find? (fun item => item.id == product.id) with
  | some _ =>
      { s with cart := s.cart.map (fun item =>
          if item.id = product.id then
            { item with quantity := item.quantity + quantity }
          else item) }
  | none =>
      { s with cart := s.cart ++ [{ toProduct := product, quantity := quantity }] }

/-- `removeFromCart` of src/App.tsx. -/
def removeFromCart (productId : String) (s : StoreState) : StoreState :=
  { s with cart := s.cart.filter (fun item => item.id != productId) }

/-- `updateCartQuantity` of src/App.tsx: non-positive quantity delegates to
`removeFromCart`, otherwise overwrite the quantity of every line with the
given id via `map`. -/
def updateCartQuantity (productId : String) (quantity : Int) (s : StoreState) : StoreState :=
  if quantity ≤ 0 then
    removeFromCart productId s
  else
    { s with cart := s.cart.map (fun item =>
        if item.id = productId then { item with quantity := quantity } else item) }

/-- `clearCart` of src/App.tsx. -/
def clearCart (s : StoreState) : StoreState :=
  { s with cart := [] }

/-- `cartSubtotal` of src/App.tsx: `cart.reduce((total, item) => total +
item.price * item.quantity, 0)`. -/
def cartSubtotal (s : StoreState) : Int :=
  s.cart.foldl (fun total item => total + item.price * item.quantity) 0

/-- `cartItemCount` of src/App.tsx: `cart.reduce((count, item) => count +
item.quantity, 0)`. -/
def cartItemCount (s : StoreState) : Int :=
  s.cart.foldl (fun count item => count + item.quantity) 0

/-- `placeOrder` of src/App.tsx: `null` on an empty item list; otherwise
build the order (id and timestamp from the clock, total = items subtotal
plus `SHIPPING_COST`, status `Pending`), append it to `orders`, clear the
cart and return the new id. -/
def placeOrder (customerInfo : CustomerInfo) (cartItems : List CartItem) (now : Int)
    (s : StoreState) : Option String × StoreState :=
  if cartItems.length = 0 then (none, s)
  else
    let itemsSubtotal := cartItems.foldl (fun total item => total + item.price * item.quantity) 0
    let totalAmountWithShipping := itemsSubtotal + SHIPPING_COST
    let newOrder : Order :=
      { id := toString now, customerInfo := customerInfo, items := cartItems,
        totalAmount := totalAmountWithShipping, paymentMethod := "Cash on Delivery",
        timestamp := now, status := OrderStatus.Pending }
    (some newOrder.id, clearCart { s with orders := s.orders ++ [newOrder] })

/-- `updateOrderStatus` of src/App.tsx: overwrite the status of every order
with the given id via `map`. -/
def updateOrderStatus (orderId : String) (status : OrderStatus) (s : StoreState) : StoreState :=
  { s with orders := s.orders.map (fun o =>
      if o.id = orderId then { o with status := status } else o) }

/-- `totalSalesAmount` of src/App.tsx: `orders.reduce((sum, order) => sum +
order.totalAmount, 0)`. -/
def totalSalesAmount (s : StoreState) : Int :=
  s.orders.foldl (fun sum order => sum + order.totalAmount) 0

/-- One call into the cart-touching part of the store interface, used to
state the cart invariant over arbitrary operation sequences. -/
inductive StoreOp where
  | addToCartOp (p : Product) (q : Int)
  | updateCartQuantityOp (id : String) (q : Int)
  | removeFromCartOp (id : String)
  | clearCartOp
  | placeOrderOp (info : CustomerInfo) (items : List CartItem) (now : Int)
deriving Repr

/-- Apply one store operation (the order id returned by `placeOrder` is
dropped, only the state transition matters here). -/
def applyOp : StoreOp → StoreState → StoreState
  | .addToCartOp p q, s => addToCart p q s
  | .updateCartQuantityOp id q, s => updateCartQuantity id q s
  | .removeFromCartOp id, s => removeFromCart id s
  | .clearCartOp, s => clearCart s
  | .placeOrderOp info items now, s => (placeOrder info items now s).2

/-- Apply a sequence of store operations from left to right. -/
def applyOps (ops : List StoreOp) (s : StoreState) : StoreState :=
  ops.foldl (fun s op => applyOp op s) s

/-- The cart invariant: every line has quantity at least 1. -/
def cartQuantitiesPos (s : StoreState) : Prop :=
  ∀ item ∈ s.cart, 1 ≤ item.quantity

instance (s : StoreState) : Decidable (cartQuantitiesPos s) :=
  inferInstanceAs (Decidable (∀ item ∈ s.cart, 1 ≤ item.quantity))

/-- An `addToCart` call is well-quantified when its quantity is at least 1
(the UI guarantees this via `Math.max(1, ...)`); the other operations place
no condition on their arguments. -/
def opQuantityOk : StoreOp → Bool
  | .addToCartOp _ q => 1 ≤ q
  | _ => true

/-- A sample customer used in concrete witnesses. -/
def sampleCustomer : CustomerInfo :=
  { name := "Ali", phone := "0300-0000000", address := "Lahore" }

/-- Sample product data used in concrete witnesses. -/
def sampleProductData : ProductData :=
  { name := "Desk Lamp", price := 1200, image := "", description := "LED lamp" }

/-- A sample product used in concrete witnesses. -/
def sampleProduct : Product :=
  { id := "p1", name := "Widget", price := 100, image := "", description := "A widget" }

/-- A second sample product, with a different id, used in concrete witnesses. -/
def sampleProduct2 : Product :=
  { id := "p2", name := "Gadget", price := 300, image := "", description := "A gadget" }

/-- A sample cart line used in concrete witnesses. -/
def sampleCartItem : CartItem :=
  { toProduct := sampleProduct, quantity := 2 }

/-- The initial store with one sample line in the cart, used in concrete
witnesses. -/
def cartStore : StoreState :=
  { initialStore with cart := [sampleCartItem] }

/-! ## Helper lemmas (shared) -/

/-- A left fold that keeps adding `f x` onto the accumulator computes the
initial value plus the sum of the mapped list. This is the shape of every
`reduce((acc, item) => acc + ..., 0)` in the provider. -/
theorem foldl_add_sum {α : Type} (f : α → Int) :
    ∀ (l : List α) (a : Int), l.foldl (fun acc x => acc + f x) a = a + (l.map f).sum := by
  intro l
  induction l with
  | nil => simp
  | cons x xs ih => intro a; simp [List.foldl_cons, ih, add_assoc]

/-- Mapping a guarded update over a list in which no element satisfies the
guard is the identity. -/
theorem map_guarded_update_eq_self {α : Type} (P : α → Prop) [DecidablePred P] (g : α → α) :
    ∀ l : List α, (∀ x ∈ l, ¬ P x) → l.map (fun x => if P x then g x else x) = l := by
  intro l
  induction l with
  | nil => simp
  | cons x xs ih =>
      intro h
      have hx : ¬ P x := h x (List.mem_cons_self x xs)
      simp only [List.map_cons, if_neg hx, List.cons.injEq, true_and]
      exact ih (fun y hy => h y (List.mem_cons_of_mem x hy))

/-- Updating only the quantity of selected cart lines does not change the
list of line ids. -/
theorem ids_map_quantity_update (pid : String) (upd : CartItem → Int) :
    ∀ l : List CartItem,
      ((l.map (fun item =>
          if item.id = pid then { item with quantity := upd item } else item)).map
        (fun item => item.id)) = l.map (fun item => item.id) := by
  intro l
  induction l with
  | nil => rfl
  | cons x xs ih => by_cases hx : x.id = pid <;> simp [hx, ih]

/-- Under distinct line ids, adding `q` onto the (unique) line matching
`pid` raises the total quantity by exactly `q`. -/
theorem sum_quantity_map_update (pid : String) (q : Int) :
    ∀ l : List CartItem, (l.map (fun item => item.id)).Nodup →
      (∃ x ∈ l, x.id = pid) →
      ((l.map (fun item =>
          if item.id = pid then { item with quantity := item.quantity + q } else item)).map
        (fun item => item.quantity)).sum
        = (l.map (fun item => item.quantity)).sum + q := by
  intro l
  induction l with
  | nil => intro _ hex; simp at hex
  | cons x xs ih =>
      intro hnd hex
      have hnd' := List.nodup_cons.mp hnd
      by_cases hx : x.id = pid
      · have hxs : ∀ y ∈ xs, ¬ y.id = pid := by
          intro y hy he
          exact hnd'.1 (by
            show x.id ∈ List.map (fun item => item.id) xs
            rw [hx, ← he]
            exact List.mem_map_of_mem (fun item => item.id) hy)
        rw [List.map_cons, if_pos hx, List.map_cons, List.sum_cons,
          map_guarded_update_eq_self (fun item => item.id = pid) _ xs hxs,
          List.map_cons, List.sum_cons]
        ring
      · obtain ⟨y, hy, hyid⟩ := hex
        have hyxs : y ∈ xs := by
          cases List.mem_cons.mp hy with
          | inl h => exact absurd (h ▸ hyid) hx
          | inr h => exact h
        rw [List.map_cons, if_neg hx, List.map_cons, List.sum_cons,
          ih hnd'.2 ⟨y, hyxs, hyid⟩, List.map_cons, List.sum_cons]
        ring

/-- When no element of the first list matches, `find?` over an append
searches the second list. -/
theorem find?_append_of_none {α : Type} (p : α → Bool) (l₁ l₂ : List α)
    (h : l₁.find? p = none) : (l₁ ++ l₂).find? p = l₂.find? p := by
  rw [List.find?_append, h, Option.none_or]

/-- Unfolding equation of `addToCart` in its merge branch. -/
theorem addToCart_cart_of_found (p : Product) (q : Int) (s : StoreState) (x : CartItem)
    (h : s.cart.find? (fun item => item.id == p.id) = some x) :
    (addToCart p q s).cart
      = s.cart.map (fun item =>
          if item.id = p.id then { item with quantity := item.quantity + q } else item) := by
  simp [addToCart, h]

/-- Unfolding equation of `addToCart` in its append branch. -/
theorem addToCart_cart_of_not_found (p : Product) (q : Int) (s : StoreState)
    (h : s.cart.find? (fun item => item.id == p.id) = none) :
    (addToCart p q s).cart = s.cart ++ [{ toProduct := p, quantity := q }] := by
  simp [addToCart, h]

/-! ## Claim theorems -/

/-- C1: on a non-empty item list, `placeOrder` appends exactly one new
order whose `totalAmount` is the items' subtotal Σ(price×quantity) plus the
fixed shipping constant, clears the cart to empty, and returns the new
order's id (not null); the product list and the admin flag are untouched. -/
theorem placeOrder_nonempty_spec (info : CustomerInfo) (items : List CartItem) (now : Int)
    (s : StoreState) (h : items ≠ []) :
    ∃ newOrder : Order,
      (placeOrder info items now s).2.orders = s.orders ++ [newOrder] ∧
      newOrder.totalAmount
        = (items.map (fun item => item.price * item.quantity)).sum + SHIPPING_COST ∧
      (placeOrder info items now s).2.cart = [] ∧
      (placeOrder info items now s).1 = some newOrder.id ∧
      (placeOrder info items now s).1 ≠ none ∧
      (placeOrder info items now s).2.products = s.products ∧
      (placeOrder info items now s).2.isAdmin = s.isAdmin := by
  have hlen : ¬ items.length = 0 := by simpa [List.length_eq_zero] using h
  refine ⟨{ id := toString now, customerInfo := info, items := items,
            totalAmount := (items.map (fun item => item.price * item.quantity)).sum
              + SHIPPING_COST,
            paymentMethod := "Cash on Delivery", timestamp := now,
            status := OrderStatus.Pending }, ?_⟩
  simp [placeOrder, hlen, h, clearCart, foldl_add_sum]

/-- Witness for C1 at a concrete non-empty cart. -/
theorem placeOrder_nonempty_spec_witness :
    ([sampleCartItem] : List CartItem) ≠ [] ∧
    ∃ newOrder : Order,
      (placeOrder sampleCustomer [sampleCartItem] 17000 initialStore).2.orders
        = initialStore.orders ++ [newOrder] ∧
      newOrder.totalAmount
        = (([sampleCartItem] : List CartItem).map
            (fun item => item.price * item.quantity)).sum + SHIPPING_COST ∧
      (placeOrder sampleCustomer [sampleCartItem] 17000 initialStore).2.cart = [] ∧
      (placeOrder sampleCustomer [sampleCartItem] 17000 initialStore).1 = some newOrder.id ∧
      (placeOrder sampleCustomer [sampleCartItem] 17000 initialStore).1 ≠ none ∧
      (placeOrder sampleCustomer [sampleCartItem] 17000 initialStore).2.products
        = initialStore.products ∧
      (placeOrder sampleCustomer [sampleCartItem] 17000 initialStore).2.isAdmin
        = initialStore.isAdmin :=
  ⟨by decide, placeOrder_nonempty_spec sampleCustomer [sampleCartItem] 17000 initialStore
    (by decide)⟩

/-- C2: `placeOrder` on an empty item list returns null and leaves the
whole store state (cart, orders, products, admin flag) unchanged. -/
theorem placeOrder_empty_noop (info : CustomerInfo) (now : Int) (s : StoreState) :
    placeOrder info [] now s = (none, s) := by
  simp [placeOrder]

/-- C5: `login` returns true and sets the admin flag exactly on the fixed
credential pair, and returns false leaving the state unchanged on every
other input. -/
theorem login_iff_admin_credentials (email pass : String) (s : StoreState) :
    ((login email pass s).1 = true ↔ email = ADMIN_EMAIL ∧ pass = ADMIN_PASSWORD) ∧
    (email = ADMIN_EMAIL ∧ pass = ADMIN_PASSWORD →
      login email pass s = (true, { s with isAdmin := true })) ∧
    (¬(email = ADMIN_EMAIL ∧ pass = ADMIN_PASSWORD) →
      login email pass s = (false, s)) := by
  unfold login
  by_cases h : email = ADMIN_EMAIL ∧ pass = ADMIN_PASSWORD <;> simp [h]

/-- Witness for C5 at the fixed admin credentials. -/
theorem login_iff_admin_credentials_witness :
    login "admin@example.com" "password123" initialStore
      = (true, { initialStore with isAdmin := true }) :=
  (login_iff_admin_credentials "admin@example.com" "password123" initialStore).2.1 ⟨rfl, rfl⟩

/-- C3: over carts with distinct line ids (the invariant every reachable
cart satisfies), `addToCart` merges into the existing line with the
product's id — adding the quantity onto it, adding no new line — when one
exists, otherwise appends exactly one new line for the product;
distinctness of line ids is preserved, and adding the same product twice
onto a cart not containing it yields a single line carrying the summed
quantity, never a duplicate line. -/
theorem addToCart_merge_or_append (s : StoreState) (p : Product) (q q' : Int)
    (hnd : (s.cart.map (fun item => item.id)).Nodup) :
    ((∃ item ∈ s.cart, item.id = p.id) →
      (addToCart p q s).cart
        = s.cart.map (fun item =>
            if item.id = p.id then { item with quantity := item.quantity + q } else item) ∧
      (addToCart p q s).cart.length = s.cart.length) ∧
    ((∀ item ∈ s.cart, item.id ≠ p.id) →
      (addToCart p q s).cart = s.cart ++ [{ toProduct := p, quantity := q }]) ∧
    ((addToCart p q s).cart.map (fun item => item.id)).Nodup ∧
    ((∀ item ∈ s.cart, item.id ≠ p.id) →
      (addToCart p q' (addToCart p q s)).cart
        = s.cart ++ [{ toProduct := p, quantity := q + q' }]) := by
  cases hfind : s.cart.find? (fun item => item.id == p.id) with
  | some x =>
      have hxmem : x ∈ s.cart := List.mem_of_find?_eq_some hfind
      have hxid : x.id = p.id := by simpa using List.find?_some hfind
      have hc := addToCart_cart_of_found p q s x hfind
      refine ⟨fun _ => ⟨hc, by rw [hc, List.length_map]⟩,
        fun hno => absurd hxid (hno x hxmem), ?_,
        fun hno => absurd hxid (hno x hxmem)⟩
      rw [hc, ids_map_quantity_update p.id (fun item => item.quantity + q) s.cart]
      exact hnd
  | none =>
      have hno : ∀ item ∈ s.cart, item.id ≠ p.id := by
        intro it hit
        simpa using List.find?_eq_none.mp hfind it hit
      have hpid : p.id ∉ s.cart.map (fun item => item.id) := by
        intro hmem
        obtain ⟨it, hit, hid⟩ := List.mem_map.mp hmem
        exact hno it hit hid
      have h1 := addToCart_cart_of_not_found p q s hfind
      refine ⟨fun hex => ?_, fun _ => h1, ?_, fun _ => ?_⟩
      · obtain ⟨it, hit, hid⟩ := hex
        exact absurd hid (hno it hit)
      · rw [h1]
        simp [List.nodup_append, hnd, hpid]
      · have hfind2 : (addToCart p q s).cart.find? (fun item => item.id == p.id)
            = some { toProduct := p, quantity := q } := by
          rw [h1, find?_append_of_none _ _ _ hfind]
          simp
        rw [addToCart_cart_of_found p q' (addToCart p q s) _ hfind2, h1, List.map_append,
          map_guarded_update_eq_self (fun item => item.id = p.id)
            (fun item => { item with quantity := item.quantity + q' }) s.cart hno]
        simp

/-- Witness for C3 on a concrete cart already holding the product. -/
theorem addToCart_merge_or_append_witness :
    (addToCart sampleProduct 1 cartStore).cart.length = cartStore.cart.length :=
  ((addToCart_merge_or_append cartStore sampleProduct 1 2 (by decide)).1
    ⟨sampleCartItem, by decide, rfl⟩).2

/-- C4: `updateCartQuantity` with non-positive quantity removes exactly the
lines with the given id and keeps every other line; with positive quantity
it overwrites the matching line's quantity, leaving all other lines
unchanged; `updateCartQuantity id 0` coincides with `removeFromCart id`. -/
theorem updateCartQuantity_spec (s : StoreState) (pid : String) (q : Int) :
    (q ≤ 0 → updateCartQuantity pid q s = removeFromCart pid s) ∧
    (q ≤ 0 → ∀ item ∈ (updateCartQuantity pid q s).cart, item.id ≠ pid) ∧
    (q ≤ 0 → ∀ item ∈ s.cart, item.id ≠ pid → item ∈ (updateCartQuantity pid q s).cart) ∧
    (0 < q →
      (updateCartQuantity pid q s).cart
        = s.cart.map (fun item =>
            if item.id = pid then { item with quantity := q } else item)) ∧
    (0 < q → ∀ item ∈ s.cart, item.id ≠ pid → item ∈ (updateCartQuantity pid q s).cart) ∧
    updateCartQuantity pid 0 s = removeFromCart pid s := by
  refine ⟨fun hq => ?_, fun hq => ?_, fun hq => ?_, fun hq => ?_, fun hq => ?_, ?_⟩
  · simp [updateCartQuantity, hq]
  · intro item hmem
    simp [updateCartQuantity, hq, removeFromCart, List.mem_filter] at hmem
    exact hmem.2
  · intro item hmem hne
    simp [updateCartQuantity, hq, removeFromCart, List.mem_filter, hmem, hne]
  · simp [updateCartQuantity, not_le.mpr hq]
  · intro item hmem hne
    simp only [updateCartQuantity, if_neg (not_le.mpr hq)]
    exact List.mem_map.mpr ⟨item, hmem, if_neg hne⟩
  · simp [updateCartQuantity]

/-- Witness for C4 on a concrete one-line cart. -/
theorem updateCartQuantity_spec_witness :
    updateCartQuantity "p1" 0 cartStore = removeFromCart "p1" cartStore :=
  (updateCartQuantity_spec cartStore "p1" 0).1 (by decide)

/-- C8: `updateOrderStatus` overwrites only the status of the order with
the matching id — its other fields (totalAmount, items, customerInfo,
timestamp) and every other order survive unchanged, as do the cart, the
products and the admin flag — and is a no-op when no order has the id. -/
theorem updateOrderStatus_spec (s : StoreState) (oid : String) (st : OrderStatus) :
    (updateOrderStatus oid st s).orders
      = s.orders.map (fun o => if o.id = oid then { o with status := st } else o) ∧
    (updateOrderStatus oid st s).cart = s.cart ∧
    (updateOrderStatus oid st s).products = s.products ∧
    (updateOrderStatus oid st s).isAdmin = s.isAdmin ∧
    (∀ o ∈ s.orders, o.id ≠ oid → o ∈ (updateOrderStatus oid st s).orders) ∧
    (∀ o ∈ s.orders, o.id = oid →
      { o with status := st } ∈ (updateOrderStatus oid st s).orders) ∧
    (∀ o' ∈ (updateOrderStatus oid st s).orders, ∃ o ∈ s.orders,
      o'.id = o.id ∧ o'.totalAmount = o.totalAmount ∧ o'.items = o.items ∧
      o'.customerInfo = o.customerInfo ∧ o'.timestamp = o.timestamp) ∧
    ((∀ o ∈ s.orders, o.id ≠ oid) → updateOrderStatus oid st s = s) := by
  refine ⟨rfl, rfl, rfl, rfl, ?_, ?_, ?_, ?_⟩
  · intro o hmem hne
    exact List.mem_map.mpr ⟨o, hmem, if_neg hne⟩
  · intro o hmem heq
    exact List.mem_map.mpr ⟨o, hmem, if_pos heq⟩
  · intro o' hmem
    obtain ⟨o, ho, hfo⟩ := List.mem_map.mp hmem
    refine ⟨o, ho, ?_⟩
    rw [← hfo]
    by_cases h : o.id = oid <;> simp [h]
  · intro hno
    simp only [updateOrderStatus]
    rw [map_guarded_update_eq_self (fun o => o.id = oid)
      (fun o => { o with status := st }) s.orders hno]

/-- Witness for C8: no order matches in the initial (empty) order list, so
the call is a no-op. -/
theorem updateOrderStatus_spec_witness :
    updateOrderStatus "42" OrderStatus.Shipped initialStore = initialStore :=
  (updateOrderStatus_spec initialStore "42" OrderStatus.Shipped).2.2.2.2.2.2.2 (by decide)

/-- C10: over carts with distinct line ids, `addToCart` raises the derived
cart item count by exactly the added quantity — in both the merge and the
append case — and leaves the products, the orders and the admin flag
unchanged. -/
theorem addToCart_item_count (s : StoreState) (p : Product) (q : Int)
    (hnd : (s.cart.map (fun item => item.id)).Nodup) :
    cartItemCount (addToCart p q s) = cartItemCount s + q ∧
    (addToCart p q s).products = s.products ∧
    (addToCart p q s).orders = s.orders ∧
    (addToCart p q s).isAdmin = s.isAdmin := by
  cases hfind : s.cart.find? (fun item => item.id == p.id) with
  | some x =>
      have hxmem : x ∈ s.cart := List.mem_of_find?_eq_some hfind
      have hxid : x.id = p.id := by simpa using List.find?_some hfind
      refine ⟨?_, by simp [addToCart, hfind], by simp [addToCart, hfind],
        by simp [addToCart, hfind]⟩
      have hsum := sum_quantity_map_update p.id q s.cart hnd ⟨x, hxmem, hxid⟩
      simp only [addToCart, hfind, cartItemCount, foldl_add_sum, zero_add]
      exact hsum
  | none =>
      refine ⟨?_, by simp [addToCart, hfind], by simp [addToCart, hfind],
        by simp [addToCart, hfind]⟩
      simp [addToCart, hfind, cartItemCount, foldl_add_sum]

/-- Witness for C10 on a concrete cart, appending a new product. -/
theorem addToCart_item_count_witness :
    cartItemCount (addToCart sampleProduct2 3 cartStore) = cartItemCount cartStore + 3 :=
  (addToCart_item_count cartStore sampleProduct2 3 (by decide)).1

/-- Every single guarded operation preserves the cart invariant: positive
quantities on `addToCart`, anything on the rest. -/
theorem cartQuantitiesPos_applyOp (op : StoreOp) (s : StoreState)
    (hs : cartQuantitiesPos s) (hop : opQuantityOk op = true) :
    cartQuantitiesPos (applyOp op s) := by
  cases op with
  | addToCartOp p q =>
      have hq : 1 ≤ q := by simpa [opQuantityOk, decide_eq_true_eq] using hop
      cases hfind : s.cart.find? (fun item => item.id == p.id) with
      | some x =>
          intro item hmem
          rw [show applyOp (StoreOp.addToCartOp p q) s = addToCart p q s from rfl,
            addToCart_cart_of_found p q s x hfind] at hmem
          obtain ⟨y, hy, rfl⟩ := List.mem_map.mp hmem
          by_cases h : y.id = p.id
          · have := hs y hy
            simp only [if_pos h]
            omega
          · simpa [if_neg h] using hs y hy
      | none =>
          intro item hmem
          rw [show applyOp (StoreOp.addToCartOp p q) s = addToCart p q s from rfl,
            addToCart_cart_of_not_found p q s hfind, List.mem_append] at hmem
          cases hmem with
          | inl h => exact hs item h
          | inr h => simpa using List.mem_singleton.mp h ▸ hq
  | updateCartQuantityOp pid q =>
      by_cases hq : q ≤ 0
      · intro item hmem
        simp only [applyOp, updateCartQuantity, if_pos hq, removeFromCart,
          List.mem_filter] at hmem
        exact hs item hmem.1
      · intro item hmem
        simp only [applyOp, updateCartQuantity, if_neg hq] at hmem
        obtain ⟨y, hy, rfl⟩ := List.mem_map.mp hmem
        by_cases h : y.id = pid
        · simp only [if_pos h]
          omega
        · simpa [if_neg h] using hs y hy
  | removeFromCartOp pid =>
      intro item hmem
      simp only [applyOp, removeFromCart, List.mem_filter] at hmem
      exact hs item hmem.1
  | clearCartOp =>
      intro item hmem
      simp [applyOp, clearCart] at hmem
  | placeOrderOp info items now =>
      by_cases hlen : items.length = 0
      · simpa only [applyOp, placeOrder, if_pos hlen] using hs
      · intro item hmem
        simp [applyOp, placeOrder, hlen, clearCart] at hmem

/-- The cart invariant is preserved along any guarded operation sequence. -/
theorem cartQuantitiesPos_applyOps :
    ∀ (ops : List StoreOp) (s : StoreState), cartQuantitiesPos s →
      (∀ op ∈ ops, opQuantityOk op = true) → cartQuantitiesPos (applyOps ops s) := by
  intro ops
  induction ops with
  | nil => intro s hs _; exact hs
  | cons op ops ih =>
      intro s hs hops
      exact ih (applyOp op s)
        (cartQuantitiesPos_applyOp op s hs (hops op (List.mem_cons_self op ops)))
        (fun o ho => hops o (List.mem_cons_of_mem op ho))

/-- C7 counterexample: `addToCart` does not guard its quantity, so the
operation sequence consisting of a single `addToCart` call with quantity 0
leaves a zero-quantity line in the cart instead of removing it, breaking
the claimed invariant. -/
theorem cart_invariant_counterexample :
    (addToCart sampleProduct 0 initialStore).cart
      = [{ toProduct := sampleProduct, quantity := 0 }] ∧
    ¬ cartQuantitiesPos (applyOps [StoreOp.addToCartOp sampleProduct 0] initialStore) := by
  exact ⟨by decide, by decide⟩

/-- C7 (amended): `updateCartQuantity` does remove on non-positive input,
but `addToCart` does not; the invariant that every cart line has quantity
at least 1 holds after any sequence of `addToCart`, `updateCartQuantity`,
`removeFromCart`, `clearCart` and `placeOrder` calls from the initial
(empty-cart) state provided every `addToCart` call passes quantity ≥ 1, as
the UI does. -/
theorem cart_invariant_sequences (ops : List StoreOp)
    (h : ∀ op ∈ ops, opQuantityOk op = true) :
    cartQuantitiesPos (applyOps ops initialStore) :=
  cartQuantitiesPos_applyOps ops initialStore
    (by intro item hmem; simp [initialStore] at hmem) h

/-- Witness for the amended C7 on a concrete guarded sequence. -/
theorem cart_invariant_sequences_witness :
    (∀ op ∈ [StoreOp.addToCartOp sampleProduct 2, StoreOp.addToCartOp sampleProduct2 1,
        StoreOp.updateCartQuantityOp "p1" 0], opQuantityOk op = true) ∧
    cartQuantitiesPos (applyOps [StoreOp.addToCartOp sampleProduct 2,
      StoreOp.addToCartOp sampleProduct2 1, StoreOp.updateCartQuantityOp "p1" 0]
      initialStore) :=
  ⟨by decide, cart_invariant_sequences _ (by decide)⟩

/-- C9 counterexample: the generated id is the clock string with no
freshness check; with the clock at 5, `addProduct` on the initial catalog
(whose sixth product has id "5") appends a product whose id collides with
an existing one, so product ids stop being unique keys. -/
theorem addProduct_id_collision :
    (addProduct sampleProductData 5 initialStore).products
      = initialStore.products
        ++ [{ id := "5", name := "Desk Lamp", price := 1200, image := "",
              description := "LED lamp" }] ∧
    (∃ pr ∈ initialStore.products, pr.id = "5") ∧
    ¬ ((addProduct sampleProductData 5 initialStore).products.map
        (fun pr => pr.id)).Nodup := by
  exact ⟨by decide, by decide, by decide⟩

/-- C9 (amended): `addProduct` appends exactly one product, whose id is
the clock string; whenever that string differs from every existing product
id (a fresh clock value), uniqueness of product ids is preserved; the
cart, orders and admin flag are untouched. -/
theorem addProduct_appends_unique (d : ProductData) (now : Int) (s : StoreState)
    (hnd : (s.products.map (fun pr => pr.id)).Nodup)
    (hfresh : ∀ pr ∈ s.products, pr.id ≠ toString now) :
    (addProduct d now s).products
      = s.products ++ [{ id := toString now, name := d.name, price := d.price,
                         image := d.image, description := d.description }] ∧
    ((addProduct d now s).products.map (fun pr => pr.id)).Nodup ∧
    (addProduct d now s).cart = s.cart ∧
    (addProduct d now s).orders = s.orders ∧
    (addProduct d now s).isAdmin = s.isAdmin := by
  refine ⟨rfl, ?_, rfl, rfl, rfl⟩
  have hpid : toString now ∉ s.products.map (fun pr => pr.id) := by
    intro hmem
    obtain ⟨pr, hpr, hid⟩ := List.mem_map.mp hmem
    exact hfresh pr hpr hid
  simp [addProduct, List.nodup_append, hnd, hpid]

/-- Witness for the amended C9 with a fresh clock value. -/
theorem addProduct_appends_unique_witness :
    ((initialStore.products.map (fun pr => pr.id)).Nodup) ∧
    (∀ pr ∈ initialStore.products, pr.id ≠ toString (777 : Int)) ∧
    ((addProduct sampleProductData 777 initialStore).products.map
      (fun pr => pr.id)).Nodup :=
  ⟨by decide, by decide,
    (addProduct_appends_unique sampleProductData 777 initialStore
      (by decide) (by decide)).2.1⟩

/-- C6: the derived aggregates equal their defining sums: cart subtotal is
Σ(price × quantity) over cart lines, item count is Σ quantity, total sales
is Σ totalAmount over orders. -/
theorem derived_aggregates_are_sums (s : StoreState) :
    cartSubtotal s = (s.cart.map (fun item => item.price * item.quantity)).sum ∧
    cartItemCount s = (s.cart.map (fun item => item.quantity)).sum ∧
    totalSalesAmount s = (s.orders.map (fun o => o.totalAmount)).sum := by
  refine ⟨?_, ?_, ?_⟩ <;>
    simp [cartSubtotal, cartItemCount, totalSalesAmount, foldl_add_sum]

end Store
